import Mathlib

/-!
Verification of the prvt repository (info-file manager, repository facade,
Azure Storage backend) against its natural-language specification.

Shallow embedding notes:
- Byte slices are modelled as `List Nat`; the Go `nil` slice and the empty
  slice are both modelled as `[]` (the code only ever tests them via
  `len(x) == 0` or `x == nil`, which coincide on this model).
- External effectful collaborators (the GPG agent, the passphrase prompt,
  Argon2id key derivation, the AEAD wrap/unwrap, the CSPRNG) are modelled as
  components of a `CryptoEnv` record: each call site in the Go code reads the
  corresponding field.  Fallible operations return `Option`.
- Go functions returning `(value..., errMessage string, err error)` are
  modelled as structures carrying the values, the message string and an
  `err : Bool` flag (`true` when the Go `error` is non-nil).
-/

namespace Prvt

/-- A wrapped master-key slot, from the infofile `Key` record: a GPG key id
(empty for passphrase slots), the wrapped master key bytes, and for
passphrase slots the salt and confirmation hash. -/
structure Key where
  GPGKey : String
  MasterKey : List Nat
  Salt : List Nat
  ConfirmationHash : List Nat
deriving DecidableEq

/-- The info file: format version, data path, ordered key slots, plus the
legacy version-1 passphrase fields (salt and confirmation hash). -/
structure InfoFile where
  Version : Nat
  DataPath : String
  Keys : List Key
  Salt : List Nat
  ConfirmationHash : List Nat
deriving DecidableEq

/-- Environment of external collaborators used by the cmd-package functions:
the GPG agent, the passphrase prompt, and the crypto primitives.  Each field
models one external call; `Option` results model fallible calls (with `none`
for a non-nil Go error). -/
structure CryptoEnv where
  gpgDecrypt : List Nat → Option (List Nat)
  gpgEncrypt : List Nat → String → Option (List Nat)
  promptPassphrase : Option String
  keyFromPassphrase : String → List Nat → Option (List Nat × List Nat)
  unwrapKey : List Nat → List Nat → Option (List Nat)
  wrapKey : List Nat → List Nat → Option (List Nat)
  newSalt : Option (List Nat)
  newKey : Option (List Nat)
  infofileNew : Option InfoFile

/-- Modelled from the spec: the infofile package is not under src/.  Per the
data-model section, a passphrase slot is the record
(salt, confirmationHash, wrappedMasterKey) appended to the ordered key
sequence; `AddPassphrase` appends such a slot (the GPG key id is empty). -/
def InfoFile.AddPassphrase (info : InfoFile) (salt confirmationHash wrappedKey : List Nat) :
    InfoFile :=
  ⟨info.Version, info.DataPath, info.Keys ++ [⟨"", wrappedKey, salt, confirmationHash⟩],
    info.Salt, info.ConfirmationHash⟩

/-- Modelled from the spec: the infofile package is not under src/.  A GPG
slot is the record (gpgKeyId, wrappedMasterKey) appended to the ordered key
sequence. -/
def InfoFile.AddGPGWrappedKey (info : InfoFile) (gpgKey : String) (wrappedKey : List Nat) :
    InfoFile :=
  ⟨info.Version, info.DataPath, info.Keys ++ [⟨gpgKey, wrappedKey, [], []⟩],
    info.Salt, info.ConfirmationHash⟩

/-- Result of `GetMasterKey`: the four Go return values, plus an
instrumentation counter recording how many times the passphrase prompt was
invoked during the call (the Go code has a single `PromptPassphrase()` call
site, reached exactly when no GPG slot decrypts). -/
structure GMKResult where
  masterKey : Option (List Nat)
  keyId : String
  errMessage : String
  err : Bool
  promptCount : Nat
deriving DecidableEq

/-- The first loop of `GetMasterKey`: try every key slot that has a non-empty
GPG key id and non-empty wrapped key, in order; the first one the GPG agent
decrypts yields the master key and that slot id. -/
def tryGPGKeys (env : CryptoEnv) : List Key → Option (List Nat × String)
  | [] => none
  | k :: rest =>
    if k.GPGKey = "" ∨ k.MasterKey = [] then tryGPGKeys env rest
    else
      match env.gpgDecrypt k.MasterKey with
      | some mk => some (mk, k.GPGKey)
      | none => tryGPGKeys env rest

/-- Spec-side definition, following the words of the unlock algorithm step 1:
the first GPG slot, in the order the slots appear, that the GPG agent
successfully decrypts, together with that slot id. -/
def firstGPGSuccess (env : CryptoEnv) : List Key → Option (List Nat × String)
  | [] => none
  | k :: rest =>
    if k.GPGKey ≠ "" ∧ k.MasterKey ≠ [] then
      match env.gpgDecrypt k.MasterKey with
      | some mk => some (mk, k.GPGKey)
      | none => firstGPGSuccess env rest
    else firstGPGSuccess env rest

/-- The legacy version-1 check inside `GetMasterKey`: when the legacy salt
and confirmation hash are present, derive from the passphrase and the legacy
salt; on a confirmation-hash match the derived key is the master key. -/
def legacyTry (env : CryptoEnv) (passphrase : String) (info : InfoFile) :
    Option (List Nat) :=
  if info.Salt ≠ [] ∧ info.ConfirmationHash ≠ [] then
    match env.keyFromPassphrase passphrase info.Salt with
    | some (mk, confirmationHash) =>
      if info.ConfirmationHash = confirmationHash then some mk else none
    | none => none
  else none

/-- Outcome of the passphrase-slot loop of `GetMasterKey`. -/
inductive PassTry
  | success (mk : List Nat) (keyId : String)
  | unwrapFailed
  | noMatch
deriving DecidableEq

/-- The passphrase-slot loop of `GetMasterKey`: skip GPG slots and slots with
an empty wrapped key, salt or confirmation hash; on a derivation success with
matching confirmation hash, unwrap the wrapped master key (an unwrap failure
aborts with an error); the counter `i` is incremented only for slots whose
derivation ran and did not match, so the returned key id is
"p:" followed by the index among tried slots. -/
def tryPassphraseKeys (env : CryptoEnv) (passphrase : String) :
    List Key → Nat → PassTry
  | [], _ => .noMatch
  | k :: rest, i =>
    if k.GPGKey ≠ "" ∨ k.MasterKey = [] then tryPassphraseKeys env passphrase rest i
    else if k.Salt = [] ∨ k.ConfirmationHash = [] then tryPassphraseKeys env passphrase rest i
    else
      match env.keyFromPassphrase passphrase k.Salt with
      | some (wrappingKey, confirmationHash) =>
        if k.ConfirmationHash = confirmationHash then
          match env.unwrapKey wrappingKey k.MasterKey with
          | some mk => .success mk ("p:" ++ toString i)
          | none => .unwrapFailed
        else tryPassphraseKeys env passphrase rest (i + 1)
      | none => tryPassphraseKeys env passphrase rest (i + 1)

/-- The phase of `GetMasterKey` after the passphrase prompt succeeded: check
the legacy version-1 fields, then try every passphrase slot in order; fail
with the unlock error when nothing matches. -/
def getMasterKeyWithPassphrase (env : CryptoEnv) (passphrase : String) (info : InfoFile) :
    GMKResult :=
  match legacyTry env passphrase info with
  | some mk => ⟨some mk, "LegacyKey", "", false, 1⟩
  | none =>
    match tryPassphraseKeys env passphrase info.Keys 0 with
    | .success mk kid => ⟨some mk, kid, "", false, 1⟩
    | .unwrapFailed => ⟨none, "", "Error while unwrapping the master key", true, 1⟩
    | .noMatch => ⟨none, "", "Cannot unlock the repository", true, 1⟩

/-- GetMasterKey from the cmd package: try every GPG-wrapped slot in order;
if none succeeds, prompt for a passphrase once, then run the passphrase
phase (`getMasterKeyWithPassphrase`). -/
def GetMasterKey (env : CryptoEnv) (info : InfoFile) : GMKResult :=
  match tryGPGKeys env info.Keys with
  | some (mk, kid) => ⟨some mk, kid, "", false, 0⟩
  | none =>
    match env.promptPassphrase with
    | none => ⟨none, "", "Error getting passphrase", true, 1⟩
    | some passphrase => getMasterKeyWithPassphrase env passphrase info

/-- Result of `UpgradeInfoFile` and `upgradeInfoFileV1`: the error message,
the error flag, and the (possibly updated) info file.  The Go functions
mutate the info file through a pointer; the model returns the updated value
(unchanged on the error paths, which in the source return before any
mutation). -/
structure UpgradeResult where
  errMessage : String
  err : Bool
  info : InfoFile
deriving DecidableEq

/-- upgradeInfoFileV1 from the cmd package: when the legacy salt and
confirmation hash are present, prompt for the passphrase, re-derive the
version-1 master key and check the confirmation hash, generate a fresh salt,
derive a new wrapping key and confirmation hash, wrap the master key, append
a passphrase slot and clear the legacy fields.  The `AddPassphrase` append is
modelled as total (see its doc comment). -/
def upgradeInfoFileV1 (env : CryptoEnv) (info : InfoFile) : UpgradeResult :=
  if info.Salt ≠ [] ∧ info.ConfirmationHash ≠ [] then
    match env.promptPassphrase with
    | none => ⟨"Error getting passphrase", true, info⟩
    | some passphrase =>
      match env.keyFromPassphrase passphrase info.Salt with
      | none => ⟨"Cannot unlock the repository", true, info⟩
      | some (masterKey, confirmationHash) =>
        if info.ConfirmationHash ≠ confirmationHash then
          ⟨"Cannot unlock the repository", true, info⟩
        else
          match env.newSalt with
          | none => ⟨"Error generating a new salt", true, info⟩
          | some newSalt =>
            match env.keyFromPassphrase passphrase newSalt with
            | none => ⟨"Error deriving the wrapping key", true, info⟩
            | some (wrappingKey, newConfirmationHash) =>
              match env.wrapKey wrappingKey masterKey with
              | none => ⟨"Error wrapping the master key", true, info⟩
              | some wrappedKey =>
                let info2 := info.AddPassphrase newSalt newConfirmationHash wrappedKey
                ⟨"", false, ⟨info2.Version, info2.DataPath, info2.Keys, [], []⟩⟩
  else ⟨"", false, info⟩

/-- UpgradeInfoFile from the cmd package: only versions 1 and 2 can be
upgraded; version 1 first goes through `upgradeInfoFileV1`; the 2 to 3 step
changes nothing structurally; finally the version is set to 3. -/
def UpgradeInfoFile (env : CryptoEnv) (info : InfoFile) : UpgradeResult :=
  if info.Version ≠ 1 ∧ info.Version ≠ 2 then
    ⟨"Unsupported repository version", true, info⟩
  else
    let r := if info.Version < 2 then upgradeInfoFileV1 env info else ⟨"", false, info⟩
    if r.err then r
    else ⟨"", false, ⟨3, r.info.DataPath, r.info.Keys, r.info.Salt, r.info.ConfirmationHash⟩⟩

/-- Result of `AddKey`: error message, error flag, updated info file. -/
structure AddKeyResult where
  errMessage : String
  err : Bool
  info : InfoFile
deriving DecidableEq

/-- AddKey from the cmd package: with an empty GPG key id, prompt for a
passphrase, generate a salt, derive the wrapping key and confirmation hash,
wrap the master key and append a passphrase slot; otherwise wrap the master
key with GPG and append a GPG slot. -/
def AddKey (env : CryptoEnv) (info : InfoFile) (masterKey : List Nat) (gpgKey : String) :
    AddKeyResult :=
  if gpgKey = "" then
    match env.promptPassphrase with
    | none => ⟨"Error getting passphrase", true, info⟩
    | some passphrase =>
      match env.newSalt with
      | none => ⟨"Error generating a new salt", true, info⟩
      | some salt =>
        match env.keyFromPassphrase passphrase salt with
        | none => ⟨"Error deriving the wrapping key", true, info⟩
        | some (wrappingKey, confirmationHash) =>
          match env.wrapKey wrappingKey masterKey with
          | none => ⟨"Error wrapping the master key", true, info⟩
          | some wrappedKey =>
            ⟨"", false, info.AddPassphrase salt confirmationHash wrappedKey⟩
  else
    match env.gpgEncrypt masterKey gpgKey with
    | none => ⟨"Error encrypting the master key with GPG", true, info⟩
    | some wrappedKey =>
      ⟨"", false, info.AddGPGWrappedKey gpgKey wrappedKey⟩

/-- Result of `NewInfoFile`: the three Go return values
(info pointer, errMessage, err). -/
structure NewInfoFileResult where
  info : Option InfoFile
  errMessage : String
  err : Bool
deriving DecidableEq

/-- NewInfoFile from the cmd package: create a fresh info file, generate a
master key, then call `AddKey`; when `AddKey` fails, the info pointer is set
to nil, and the final return statement is `return info, "", nil`
(discarding the `AddKey` error message and error). -/
def NewInfoFile (env : CryptoEnv) (gpgKey : String) : NewInfoFileResult :=
  match env.infofileNew with
  | none => ⟨none, "Error creating info file", true⟩
  | some info =>
    match env.newKey with
    | none => ⟨none, "Error generating the master key", true⟩
    | some masterKey =>
      let r := AddKey env info masterKey gpgKey
      ⟨if r.err then none else some r.info, "", false⟩

theorem tryGPGKeys_eq_firstGPGSuccess (env : CryptoEnv) (keys : List Key) :
    tryGPGKeys env keys = firstGPGSuccess env keys := by
  induction keys with
  | nil => rfl
  | cons k rest ih =>
    unfold tryGPGKeys firstGPGSuccess
    by_cases h : k.GPGKey = "" ∨ k.MasterKey = []
    · rw [if_pos h, if_neg (by tauto), ih]
    · rw [if_neg h, if_pos (by tauto)]
      cases env.gpgDecrypt k.MasterKey with
      | some mk => rfl
      | none => exact ih

/-- Claim C2: GetMasterKey first tries every GPG-wrapped key slot in the
order the slots appear in the info file; the first slot that GPG
successfully decrypts yields the returned master key together with that slot
GPG key id, without prompting; and only when no GPG slot succeeds does it
prompt for a passphrase, exactly once per call. -/
theorem getMasterKey_gpg_order_and_single_prompt (env : CryptoEnv) (info : InfoFile) :
    (∀ mk kid, firstGPGSuccess env info.Keys = some (mk, kid) →
      GetMasterKey env info = ⟨some mk, kid, "", false, 0⟩)
    ∧ (firstGPGSuccess env info.Keys = none → (GetMasterKey env info).promptCount = 1) := by
  constructor
  · intro mk kid h
    unfold GetMasterKey
    rw [tryGPGKeys_eq_firstGPGSuccess, h]
  · intro h
    unfold GetMasterKey
    rw [tryGPGKeys_eq_firstGPGSuccess, h]
    cases env.promptPassphrase with
    | none => rfl
    | some passphrase =>
      show (getMasterKeyWithPassphrase env passphrase info).promptCount = 1
      unfold getMasterKeyWithPassphrase
      cases legacyTry env passphrase info with
      | some mk => rfl
      | none =>
        cases tryPassphraseKeys env passphrase info.Keys 0 with
        | success mk kid => rfl
        | unwrapFailed => rfl
        | noMatch => rfl

/-- Test environment with a GPG agent that decrypts exactly the wrapped blob
[9] to the master key [1, 2]. -/
def testGPGEnv : CryptoEnv :=
  ⟨fun w => if w = [9] then some [1, 2] else none,
    fun _ _ => none,
    some "pw",
    fun _ s => some (0 :: s, 1 :: s),
    fun _ w => some w,
    fun _ mk => some mk,
    some [6],
    some [3],
    some ⟨3, "data", [], [], []⟩⟩

/-- Test info file with one passphrase slot followed by one GPG slot. -/
def testInfoGPG : InfoFile :=
  ⟨3, "data", [⟨"", [5], [5], [1, 5]⟩, ⟨"id1", [9], [], []⟩], [], []⟩

/-- Witness for claim C2 at a concrete environment and info file: the GPG
slot "id1" is the first GPG success and GetMasterKey returns its key without
prompting. -/
theorem getMasterKey_gpg_order_and_single_prompt_witness :
    firstGPGSuccess testGPGEnv testInfoGPG.Keys = some ([1, 2], "id1")
    ∧ GetMasterKey testGPGEnv testInfoGPG = ⟨some [1, 2], "id1", "", false, 0⟩ :=
  ⟨by decide,
    (getMasterKey_gpg_order_and_single_prompt testGPGEnv testInfoGPG).1 [1, 2] "id1" (by decide)⟩

/-- The passphrase does not match the confirmation hash of slot `k`:
whenever derivation from the slot salt succeeds, the derived confirmation
hash differs from the stored one. -/
def slotNoMatch (env : CryptoEnv) (passphrase : String) (k : Key) : Prop :=
  ∀ wk ch, env.keyFromPassphrase passphrase k.Salt = some (wk, ch) →
    k.ConfirmationHash ≠ ch

theorem tryPassphraseKeys_noMatch (env : CryptoEnv) (passphrase : String)
    (keys : List Key) (h : ∀ k ∈ keys, slotNoMatch env passphrase k) :
    ∀ i, tryPassphraseKeys env passphrase keys i = .noMatch := by
  induction keys with
  | nil => intro i; rfl
  | cons k rest ih =>
    intro i
    have hk := h k (List.mem_cons_self k rest)
    have hrest : ∀ k2 ∈ rest, slotNoMatch env passphrase k2 :=
      fun k2 hm => h k2 (List.mem_cons_of_mem k hm)
    show tryPassphraseKeys env passphrase (k :: rest) i = .noMatch
    unfold tryPassphraseKeys
    by_cases h1 : k.GPGKey ≠ "" ∨ k.MasterKey = []
    · rw [if_pos h1]; exact ih hrest i
    · rw [if_neg h1]
      by_cases h2 : k.Salt = [] ∨ k.ConfirmationHash = []
      · rw [if_pos h2]; exact ih hrest i
      · rw [if_neg h2]
        cases hd : env.keyFromPassphrase passphrase k.Salt with
        | none => exact ih hrest (i + 1)
        | some p =>
          obtain ⟨wk, ch⟩ := p
          show (if k.ConfirmationHash = ch then _ else _) = PassTry.noMatch
          rw [if_neg (hk wk ch hd)]
          exact ih hrest (i + 1)

theorem legacyTry_none (env : CryptoEnv) (passphrase : String) (info : InfoFile)
    (h : ∀ mk ch, env.keyFromPassphrase passphrase info.Salt = some (mk, ch) →
      info.ConfirmationHash ≠ ch) :
    legacyTry env passphrase info = none := by
  unfold legacyTry
  split
  · cases hd : env.keyFromPassphrase passphrase info.Salt with
    | none => rfl
    | some p =>
      obtain ⟨mk, ch⟩ := p
      show (if info.ConfirmationHash = ch then some mk else none) = none
      rw [if_neg (h mk ch hd)]
  · rfl

/-- Claim C4: when no GPG slot succeeds and the prompted passphrase matches
neither the legacy confirmation hash nor the confirmation hash of any key
slot, GetMasterKey fails with the unlock error
"Cannot unlock the repository" and a nil master key. -/
theorem getMasterKey_wrong_passphrase_fails (env : CryptoEnv) (info : InfoFile)
    (passphrase : String)
    (hgpg : firstGPGSuccess env info.Keys = none)
    (hprompt : env.promptPassphrase = some passphrase)
    (hlegacy : ∀ mk ch, env.keyFromPassphrase passphrase info.Salt = some (mk, ch) →
      info.ConfirmationHash ≠ ch)
    (hslots : ∀ k ∈ info.Keys, slotNoMatch env passphrase k) :
    GetMasterKey env info = ⟨none, "", "Cannot unlock the repository", true, 1⟩ := by
  unfold GetMasterKey
  rw [tryGPGKeys_eq_firstGPGSuccess, hgpg, hprompt]
  show getMasterKeyWithPassphrase env passphrase info = _
  unfold getMasterKeyWithPassphrase
  rw [legacyTry_none env passphrase info hlegacy,
    tryPassphraseKeys_noMatch env passphrase info.Keys hslots 0]

/-- Test environment in which GPG decryption always fails and derivation
from a salt s yields the key 0 :: s with confirmation hash 1 :: s. -/
def testNoMatchEnv : CryptoEnv :=
  ⟨fun _ => none,
    fun _ _ => none,
    some "pw",
    fun _ s => some (0 :: s, 1 :: s),
    fun _ w => some w,
    fun _ mk => some mk,
    some [6],
    some [3],
    none⟩

/-- Test info file whose legacy confirmation hash and single passphrase slot
both fail to match what testNoMatchEnv derives. -/
def testInfoNoMatch : InfoFile :=
  ⟨2, "data", [⟨"", [7], [4], [9, 9]⟩], [5], [8, 8]⟩

/-- Witness for claim C4 at a concrete environment and info file. -/
theorem getMasterKey_wrong_passphrase_fails_witness :
    firstGPGSuccess testNoMatchEnv testInfoNoMatch.Keys = none
    ∧ GetMasterKey testNoMatchEnv testInfoNoMatch
        = ⟨none, "", "Cannot unlock the repository", true, 1⟩ := by
  refine ⟨by decide, getMasterKey_wrong_passphrase_fails testNoMatchEnv testInfoNoMatch "pw"
    (by decide) rfl ?_ ?_⟩
  · intro mk ch h
    injection h with h3
    have hch := congrArg Prod.snd h3
    simp only at hch
    rw [← hch]
    decide
  · intro k hk
    have hk2 : k = ⟨"", [7], [4], [9, 9]⟩ := by
      simpa [testInfoNoMatch] using hk
    subst hk2
    intro wk ch h
    injection h with h3
    have hch := congrArg Prod.snd h3
    simp only at hch
    rw [← hch]
    decide

theorem firstGPGSuccess_append_none (env : CryptoEnv) (l₁ l₂ : List Key)
    (h1 : firstGPGSuccess env l₁ = none) (h2 : firstGPGSuccess env l₂ = none) :
    firstGPGSuccess env (l₁ ++ l₂) = none := by
  induction l₁ with
  | nil => simpa using h2
  | cons k rest ih =>
    rw [List.cons_append]
    unfold firstGPGSuccess at h1 ⊢
    by_cases hc : k.GPGKey ≠ "" ∧ k.MasterKey ≠ []
    · rw [if_pos hc] at h1 ⊢
      cases hd : env.gpgDecrypt k.MasterKey with
      | some mk => rw [hd] at h1; exact Option.noConfusion h1
      | none => rw [hd] at h1; exact ih h1
    · rw [if_neg hc] at h1 ⊢
      exact ih h1

/-- Unfolding equation of `tryPassphraseKeys` on a cons cell. -/
theorem tryPassphraseKeys_cons (env : CryptoEnv) (passphrase : String)
    (k : Key) (rest : List Key) (i : Nat) :
    tryPassphraseKeys env passphrase (k :: rest) i =
      if k.GPGKey ≠ "" ∨ k.MasterKey = [] then tryPassphraseKeys env passphrase rest i
      else if k.Salt = [] ∨ k.ConfirmationHash = [] then
        tryPassphraseKeys env passphrase rest i
      else
        match env.keyFromPassphrase passphrase k.Salt with
        | some (wrappingKey, confirmationHash) =>
          if k.ConfirmationHash = confirmationHash then
            match env.unwrapKey wrappingKey k.MasterKey with
            | some mk => .success mk ("p:" ++ toString i)
            | none => .unwrapFailed
          else tryPassphraseKeys env passphrase rest (i + 1)
        | none => tryPassphraseKeys env passphrase rest (i + 1) := rfl

theorem tryPassphraseKeys_append_of_noMatch (env : CryptoEnv) (passphrase : String)
    (l₁ l₂ : List Key) (h : ∀ k ∈ l₁, slotNoMatch env passphrase k) :
    ∀ i, ∃ j, tryPassphraseKeys env passphrase (l₁ ++ l₂) i
      = tryPassphraseKeys env passphrase l₂ j := by
  induction l₁ with
  | nil => intro i; exact ⟨i, rfl⟩
  | cons k rest ih =>
    intro i
    have hk := h k (List.mem_cons_self k rest)
    have hrest : ∀ k2 ∈ rest, slotNoMatch env passphrase k2 :=
      fun k2 hm => h k2 (List.mem_cons_of_mem k hm)
    rw [List.cons_append, tryPassphraseKeys_cons]
    by_cases h1 : k.GPGKey ≠ "" ∨ k.MasterKey = []
    · rw [if_pos h1]; exact ih hrest i
    · rw [if_neg h1]
      by_cases h2 : k.Salt = [] ∨ k.ConfirmationHash = []
      · rw [if_pos h2]; exact ih hrest i
      · rw [if_neg h2]
        cases hd : env.keyFromPassphrase passphrase k.Salt with
        | none => exact ih hrest (i + 1)
        | some p =>
          obtain ⟨wk, ch⟩ := p
          show ∃ j, (if k.ConfirmationHash = ch then _ else _) = _
          rw [if_neg (hk wk ch hd)]
          exact ih hrest (i + 1)

theorem getMasterKey_pass_success (env : CryptoEnv) (info : InfoFile)
    (passphrase : String)
    (hgpg : firstGPGSuccess env info.Keys = none)
    (hprompt : env.promptPassphrase = some passphrase)
    (hleg : legacyTry env passphrase info = none)
    (mk : List Nat) (kid : String)
    (hpass : tryPassphraseKeys env passphrase info.Keys 0 = .success mk kid) :
    GetMasterKey env info = ⟨some mk, kid, "", false, 1⟩ := by
  unfold GetMasterKey
  rw [tryGPGKeys_eq_firstGPGSuccess, hgpg, hprompt]
  show getMasterKeyWithPassphrase env passphrase info = _
  unfold getMasterKeyWithPassphrase
  rw [hleg, hpass]

theorem getMasterKey_legacy_success (env : CryptoEnv) (info : InfoFile)
    (passphrase : String) (mk : List Nat)
    (hgpg : firstGPGSuccess env info.Keys = none)
    (hprompt : env.promptPassphrase = some passphrase)
    (hleg : legacyTry env passphrase info = some mk) :
    GetMasterKey env info = ⟨some mk, "LegacyKey", "", false, 1⟩ := by
  unfold GetMasterKey
  rw [tryGPGKeys_eq_firstGPGSuccess, hgpg, hprompt]
  show getMasterKeyWithPassphrase env passphrase info = _
  unfold getMasterKeyWithPassphrase
  rw [hleg]

/-- Test environment for the upgrade claim: no GPG, prompt answers "pw",
derivation from salt s yields key 0 :: s and hash 1 :: s, the wrap is the
identity on the wrapped key. -/
def testUpgradeEnv : CryptoEnv :=
  ⟨fun _ => none,
    fun _ _ => none,
    some "pw",
    fun _ s => some (0 :: s, 1 :: s),
    fun _ q => some q,
    fun _ mk => some mk,
    some [6],
    some [3],
    none⟩

/-- Test version-1 info file whose legacy confirmation hash matches what
testUpgradeEnv derives from "pw" and the legacy salt [5]. -/
def testInfoV1 : InfoFile := ⟨1, "data", [], [5], [1, 5]⟩

/-- Counterexample for claim C3 as stated: at a concrete version-1 info file
with a valid passphrase, unlocking the upgraded file yields the same master
key but a different key slot id ("p:0" instead of "LegacyKey"), so the
unlock result is not the same. -/
theorem upgradeV1_unlock_not_same_result :
    (GetMasterKey testUpgradeEnv (UpgradeInfoFile testUpgradeEnv testInfoV1).info).masterKey
      = (GetMasterKey testUpgradeEnv testInfoV1).masterKey
    ∧ (GetMasterKey testUpgradeEnv (UpgradeInfoFile testUpgradeEnv testInfoV1).info).keyId
      = "p:0"
    ∧ (GetMasterKey testUpgradeEnv testInfoV1).keyId = "LegacyKey"
    ∧ GetMasterKey testUpgradeEnv (UpgradeInfoFile testUpgradeEnv testInfoV1).info
      ≠ GetMasterKey testUpgradeEnv testInfoV1 := by
  decide

/-- Claim C3, amended: for a version-1 info file with legacy fields, a valid
passphrase, successful crypto operations, no succeeding GPG slot and no
previously matching passphrase slot, UpgradeInfoFile sets the version to 3,
clears the legacy salt and confirmation hash, appends exactly one passphrase
slot wrapping the master key and changes nothing else; unlocking the
upgraded file with the same passphrase yields the same master key as
unlocking the original file (the reported key slot id changes from
"LegacyKey" to a passphrase slot id). -/
theorem upgradeV1_unlock_same_master_key (env : CryptoEnv) (info : InfoFile)
    (passphrase : String) (mk ns wk nch w : List Nat)
    (hver : info.Version = 1)
    (hsalt : info.Salt ≠ []) (hch : info.ConfirmationHash ≠ [])
    (hprompt : env.promptPassphrase = some passphrase)
    (hderive : env.keyFromPassphrase passphrase info.Salt = some (mk, info.ConfirmationHash))
    (hns : env.newSalt = some ns) (hnsne : ns ≠ [])
    (hderive2 : env.keyFromPassphrase passphrase ns = some (wk, nch)) (hnchne : nch ≠ [])
    (hwrap : env.wrapKey wk mk = some w) (hwne : w ≠ [])
    (hunwrap : env.unwrapKey wk w = some mk)
    (hgpg : firstGPGSuccess env info.Keys = none)
    (hslots : ∀ k ∈ info.Keys, slotNoMatch env passphrase k) :
    UpgradeInfoFile env info
      = ⟨"", false, ⟨3, info.DataPath, info.Keys ++ [⟨"", w, ns, nch⟩], [], []⟩⟩
    ∧ (GetMasterKey env (UpgradeInfoFile env info).info).masterKey = some mk
    ∧ (GetMasterKey env info).masterKey = some mk := by
  have hupv1 : upgradeInfoFileV1 env info
      = ⟨"", false, ⟨info.Version, info.DataPath,
          info.Keys ++ [⟨"", w, ns, nch⟩], [], []⟩⟩ := by
    simp [upgradeInfoFileV1, InfoFile.AddPassphrase, hprompt, hderive, hns, hderive2,
      hwrap, hsalt, hch]
  have hup : UpgradeInfoFile env info
      = ⟨"", false, ⟨3, info.DataPath, info.Keys ++ [⟨"", w, ns, nch⟩], [], []⟩⟩ := by
    simp [UpgradeInfoFile, hver, hupv1]
  have hgpgslot : firstGPGSuccess env [⟨"", w, ns, nch⟩] = none := by
    simp [firstGPGSuccess]
  have hgpg2 : firstGPGSuccess env (info.Keys ++ [⟨"", w, ns, nch⟩]) = none :=
    firstGPGSuccess_append_none env info.Keys [⟨"", w, ns, nch⟩] hgpg hgpgslot
  have hone : ∀ j, tryPassphraseKeys env passphrase [⟨"", w, ns, nch⟩] j
      = .success mk ("p:" ++ toString j) := by
    intro j
    simp [tryPassphraseKeys, hwne, hnsne, hnchne, hderive2, hunwrap]
  obtain ⟨j, hj⟩ :=
    tryPassphraseKeys_append_of_noMatch env passphrase info.Keys [⟨"", w, ns, nch⟩] hslots 0
  have hpass : tryPassphraseKeys env passphrase (info.Keys ++ [⟨"", w, ns, nch⟩]) 0
      = .success mk ("p:" ++ toString j) := by rw [hj, hone j]
  have hleg0 : legacyTry env passphrase info = some mk := by
    unfold legacyTry
    rw [if_pos ⟨hsalt, hch⟩, hderive]
    simp
  have hres : GetMasterKey env
      ⟨3, info.DataPath, info.Keys ++ [⟨"", w, ns, nch⟩], [], []⟩
      = ⟨some mk, "p:" ++ toString j, "", false, 1⟩ :=
    getMasterKey_pass_success env
      ⟨3, info.DataPath, info.Keys ++ [⟨"", w, ns, nch⟩], [], []⟩ passphrase hgpg2 hprompt
      (by simp [legacyTry]) mk ("p:" ++ toString j) hpass
  refine ⟨hup, ?_, ?_⟩
  · rw [hup]
    show (GetMasterKey env
      ⟨3, info.DataPath, info.Keys ++ [⟨"", w, ns, nch⟩], [], []⟩).masterKey = some mk
    rw [hres]
  · rw [getMasterKey_legacy_success env info passphrase mk hgpg hprompt hleg0]

/-- Witness for the amended claim C3 at a concrete environment and info
file: the upgrade appends the slot and the same master key [0, 5] unlocks
both files. -/
theorem upgradeV1_unlock_same_master_key_witness :
    UpgradeInfoFile testUpgradeEnv testInfoV1
      = ⟨"", false, ⟨3, "data", [⟨"", [0, 5], [6], [1, 6]⟩], [], []⟩⟩
    ∧ (GetMasterKey testUpgradeEnv
        (UpgradeInfoFile testUpgradeEnv testInfoV1).info).masterKey = some [0, 5]
    ∧ (GetMasterKey testUpgradeEnv testInfoV1).masterKey = some [0, 5] := by
  have h := upgradeV1_unlock_same_master_key testUpgradeEnv testInfoV1 "pw"
    [0, 5] [6] [0, 6] [1, 6] [0, 5]
    rfl (by decide) (by decide) rfl rfl rfl (by decide) rfl (by decide) rfl (by decide) rfl
    (by decide) (by intro k hk; simp [testInfoV1] at hk)
  exact h

/-- Claim C5: for a version-2 info file, UpgradeInfoFile succeeds and only
changes the version field, setting it to 3; the key slots, the data path and
the legacy fields are returned unchanged. -/
theorem upgradeInfoFile_v2_only_bumps_version (env : CryptoEnv) (info : InfoFile)
    (h : info.Version = 2) :
    UpgradeInfoFile env info
      = ⟨"", false, ⟨3, info.DataPath, info.Keys, info.Salt, info.ConfirmationHash⟩⟩ := by
  simp [UpgradeInfoFile, h]

/-- Test version-2 info file with one GPG slot. -/
def testInfoV2 : InfoFile := ⟨2, "data", [⟨"id1", [9], [], []⟩], [], []⟩

/-- Witness for claim C5 at a concrete version-2 info file. -/
theorem upgradeInfoFile_v2_only_bumps_version_witness :
    testInfoV2.Version = 2
    ∧ UpgradeInfoFile testUpgradeEnv testInfoV2
      = ⟨"", false, ⟨3, "data", [⟨"id1", [9], [], []⟩], [], []⟩⟩ :=
  ⟨rfl, by rw [upgradeInfoFile_v2_only_bumps_version testUpgradeEnv testInfoV2 rfl]; rfl⟩

/-- Claim C9: when `AddKey` fails inside `NewInfoFile` (after the info file
and the master key were created), NewInfoFile returns a nil info file
together with an empty error message and a nil error, so the caller gets no
error indication. -/
theorem newInfoFile_swallows_addKey_error (env : CryptoEnv) (gpgKey : String)
    (info : InfoFile) (masterKey : List Nat)
    (h1 : env.infofileNew = some info)
    (h2 : env.newKey = some masterKey)
    (h3 : (AddKey env info masterKey gpgKey).err = true) :
    NewInfoFile env gpgKey = ⟨none, "", false⟩ := by
  unfold NewInfoFile
  rw [h1, h2]
  show (⟨if (AddKey env info masterKey gpgKey).err then none
    else some (AddKey env info masterKey gpgKey).info, "", false⟩ : NewInfoFileResult) = _
  rw [h3]
  simp

/-- Test environment whose passphrase prompt fails, making `AddKey` with an
empty GPG key id fail. -/
def testPromptFailEnv : CryptoEnv :=
  ⟨fun _ => none,
    fun _ _ => none,
    none,
    fun _ s => some (0 :: s, 1 :: s),
    fun _ q => some q,
    fun _ mk => some mk,
    some [6],
    some [3],
    some ⟨3, "data", [], [], []⟩⟩

/-- Witness for claim C9: with a failing passphrase prompt, AddKey errors
and NewInfoFile still reports success with a nil info file. -/
theorem newInfoFile_swallows_addKey_error_witness :
    (AddKey testPromptFailEnv ⟨3, "data", [], [], []⟩ [3] "").err = true
    ∧ NewInfoFile testPromptFailEnv "" = ⟨none, "", false⟩ :=
  ⟨by decide, newInfoFile_swallows_addKey_error testPromptFailEnv ""
    ⟨3, "data", [], [], []⟩ [3] rfl rfl (by decide)⟩

/-- The path part of the blob URL built by AzureStorage.blobUrl, relative to
the container URL: an empty name is an error; a name that does not start
with an underscore is placed directly under the data path; otherwise the
name is used as is. -/
def blobUrlPath (dataPath name : String) : Option String :=
  if name = "" then none
  else
    let folder := if name.front = '_' then "" else dataPath ++ "/"
    some (folder ++ name)

/-- Spec-side definition, following the spec words: objects live under
dataPath, then a directory named by the first two characters of the object
id, then the object id. -/
def shardedBlobPath (dataPath name : String) : String :=
  dataPath ++ "/" ++ name.take 2 ++ "/" ++ name

/-- Counterexample for claim C1 as stated: for the object id "abcd" the code
builds the path "data/abcd" with no two-character shard directory, which
differs from the sharded path the claim describes. -/
theorem blobUrlPath_not_sharded :
    blobUrlPath "data" "abcd" = some "data/abcd"
    ∧ blobUrlPath "data" "abcd" ≠ some (shardedBlobPath "data" "abcd") := by
  constructor
  · rfl
  · decide

/-- Claim C1, amended: for every stored object whose name is non-empty and
does not start with an underscore, the backend path is dataPath/objectId,
with the object id placed directly inside the data path (no two-character
shard directory). -/
theorem blobUrlPath_data_path (dataPath name : String)
    (h1 : name ≠ "") (h2 : name.front ≠ '_') :
    blobUrlPath dataPath name = some ((dataPath ++ "/") ++ name) := by
  unfold blobUrlPath
  rw [if_neg h1]
  simp [if_neg h2]

/-- Witness for the amended claim C1 at a concrete data path and object
id. -/
theorem blobUrlPath_data_path_witness :
    blobUrlPath "data" "zz11" = some "data/zz11" := by
  rw [blobUrlPath_data_path "data" "zz11" (by decide) (by decide)]
  decide

/-- Status of one removed path reported on the RemovePath result channel. -/
inductive RepositoryStatus
  | OK
  | NotFound
  | InternalError
deriving DecidableEq

/-- One message on the RemovePath result channel: the path, the status, and
whether an error value is attached. -/
structure PathResultMessage where
  path : String
  status : RepositoryStatus
  hasErr : Bool
deriving DecidableEq

/-- The deletion loop of Repository.RemovePath: for each object id, attempt
the backend delete; report InternalError and continue on failure, OK on
success; the path reported is the one at the same position as the object
id. -/
def removeLoop (storeDelete : String → Bool) : List String → List String →
    List PathResultMessage
  | [], _ => []
  | objId :: objs, paths =>
    let p := paths.headD ""
    let rest := removeLoop storeDelete objs paths.tail
    if storeDelete objId then ⟨p, .OK, false⟩ :: rest
    else ⟨p, .InternalError, true⟩ :: rest

/-- Repository.RemovePath: ask the index to delete the path; on an index
error report InternalError for the requested path; when no objects are
returned report NotFound for the requested path; otherwise run the deletion
loop over the returned object ids and paths.  The index call and the
per-object backend delete are external collaborators passed as
parameters. -/
def RemovePath (deleteFile : Except Unit (List String × List String))
    (storeDelete : String → Bool) (path : String) : List PathResultMessage :=
  match deleteFile with
  | .error _ => [⟨path, .InternalError, true⟩]
  | .ok (objects, paths) =>
    if objects = [] then [⟨path, .NotFound, false⟩]
    else removeLoop storeDelete objects paths

theorem removeLoop_eq_zip_map (storeDelete : String → Bool) :
    ∀ (objs paths : List String), paths.length = objs.length →
      removeLoop storeDelete objs paths
        = (objs.zip paths).map (fun op =>
            if storeDelete op.1 then ⟨op.2, .OK, false⟩
            else ⟨op.2, .InternalError, true⟩) := by
  intro objs
  induction objs with
  | nil => intro paths _; rfl
  | cons o objs ih =>
    intro paths hlen
    cases paths with
    | nil => exact absurd hlen (by simp)
    | cons p ps =>
      have hlen2 : ps.length = objs.length := by simpa using hlen
      show removeLoop storeDelete (o :: objs) (p :: ps) = _
      unfold removeLoop
      rw [List.zip_cons_cons, List.map_cons]
      simp only [List.headD, List.tail]
      rw [ih ps hlen2]
      by_cases hd : storeDelete o
      · rw [if_pos hd, if_pos hd]
      · rw [if_neg hd, if_neg hd]

/-- Claim C6: when the index removal succeeds, RemovePath emits exactly one
NotFound message for the requested path if no entries matched, and otherwise
exactly one message per removed entry, carrying that entry path, with OK on
backend delete success and InternalError on failure, continuing past
per-object failures. -/
theorem removePath_messages (deleteFile : Except Unit (List String × List String))
    (storeDelete : String → Bool) (path : String) (objs paths : List String)
    (hok : deleteFile = .ok (objs, paths)) (hlen : paths.length = objs.length) :
    (objs = [] → RemovePath deleteFile storeDelete path = [⟨path, .NotFound, false⟩])
    ∧ (objs ≠ [] →
        RemovePath deleteFile storeDelete path
          = (objs.zip paths).map (fun op =>
              if storeDelete op.1 then ⟨op.2, .OK, false⟩
              else ⟨op.2, .InternalError, true⟩)
        ∧ (RemovePath deleteFile storeDelete path).length = objs.length) := by
  subst hok
  constructor
  · intro he
    subst he
    rfl
  · intro hne
    have hmain : RemovePath (.ok (objs, paths)) storeDelete path
        = (objs.zip paths).map (fun op =>
            if storeDelete op.1 then ⟨op.2, .OK, false⟩
            else ⟨op.2, .InternalError, true⟩) := by
      show (if objs = [] then [⟨path, .NotFound, false⟩]
        else removeLoop storeDelete objs paths) = _
      rw [if_neg hne]
      exact removeLoop_eq_zip_map storeDelete objs paths hlen
    refine ⟨hmain, ?_⟩
    rw [hmain]
    rw [List.length_map, List.length_zip, hlen, Nat.min_self]

/-- Witness for claim C6: two entries, the first backend delete fails and
the second succeeds, so one InternalError and one OK message are emitted. -/
theorem removePath_messages_witness :
    RemovePath (.ok (["o1", "o2"], ["/a", "/b"])) (fun o => o == "o2") "/x"
      = [⟨"/a", .InternalError, true⟩, ⟨"/b", .OK, false⟩] := by
  have h := (removePath_messages (.ok (["o1", "o2"], ["/a", "/b"]))
    (fun o => o == "o2") "/x" ["o1", "o2"] ["/a", "/b"] rfl rfl).2 (by decide)
  rw [h.1]
  rfl

/-- Access conditions attached to an Azure blob operation: the zero value
(no condition), an if-none-match on any version, or an if-match on a
specific ETag. -/
inductive AccessConditions
  | always
  | ifNoneMatchAny
  | ifMatch (etag : String)
deriving DecidableEq

/-- AzureStorage.blobAccessConditions: with no tag the upload may succeed
only if there is no blob at that path yet (IfNoneMatch any); with a tag the
upload may succeed only if the blob has not been modified, i.e. its ETag
equals the tag (IfMatch). -/
def blobAccessConditions (tag : Option String) : AccessConditions :=
  match tag with
  | none => .ifNoneMatchAny
  | some t => .ifMatch t

/-- Modelled from the spec: the Azure Blob Storage service semantics of
conditional headers (an external collaborator): IfNoneMatch any succeeds
exactly when no blob exists at the name, IfMatch succeeds exactly when the
current ETag equals the supplied one. -/
def conditionAllows (cond : AccessConditions) (currentETag : Option String) : Bool :=
  match cond with
  | .always => true
  | .ifNoneMatchAny => currentETag.isNone
  | .ifMatch t => currentETag == some t

/-- AzureStorage.RawSet reduced to its write condition: the upload uses the
access conditions computed by blobAccessConditions from the supplied tag,
and the service allows it according to those conditions. -/
def rawSetAllowed (currentETag : Option String) (tag : Option String) : Bool :=
  conditionAllows (blobAccessConditions tag) currentETag

/-- Claim C7: RawSet with a nil tag writes under an if-none-match-any
condition, succeeding exactly when no blob exists at the name; RawSet with a
tag writes under an if-match condition, succeeding exactly when the current
version tag equals the supplied one. -/
theorem rawSet_conditional_write (currentETag : Option String) :
    blobAccessConditions none = .ifNoneMatchAny
    ∧ (∀ t, blobAccessConditions (some t) = .ifMatch t)
    ∧ (rawSetAllowed currentETag none = true ↔ currentETag = none)
    ∧ (∀ t, rawSetAllowed currentETag (some t) = true ↔ currentETag = some t) := by
  refine ⟨rfl, fun t => rfl, ?_, fun t => ?_⟩
  · cases currentETag <;> simp [rawSetAllowed, conditionAllows, blobAccessConditions]
  · cases currentETag <;> simp [rawSetAllowed, conditionAllows, blobAccessConditions]

/-- Witness for claim C7 at concrete tags: a write with no tag succeeds on
an absent blob, and a write with tag "e1" succeeds when the current ETag is
"e1". -/
theorem rawSet_conditional_write_witness :
    rawSetAllowed none none = true
    ∧ rawSetAllowed (some "e1") (some "e1") = true :=
  ⟨((rawSet_conditional_write none).2.2.1).mpr rfl,
    ((rawSet_conditional_write (some "e1")).2.2.2 "e1").mpr rfl⟩

/-- Outcome of one blob download request: success with the response content
length, a 404 not-found (mapped to found=false, nil error), or another
network or storage error. -/
inductive DownloadOutcome
  | ok (contentLength : Int)
  | notFound
  | failure
deriving DecidableEq

/-- Observable events of the Azure backend read paths, in order: a blob
download with a start offset and a byte count, the cancellation of the inner
fetch context, an insertion into the metadata cache, the invocation of the
metadata callback, and the ranged decryption call with its header fields. -/
inductive FsEvent
  | download (start count : Int)
  | cancelFetch
  | cacheAdd (name : String)
  | metadataCallback
  | decryptPackages (headerVersion : Nat) (wrappedKey : List Nat) (startPackage skip : Nat)
deriving DecidableEq

/-- AzureStorage.RawGet, reduced to its result triple
(found, tag present, errored), with the download outcome and the success of
the body copy as parameters.  An existing blob with zero content length
yields found=false with no error before any copy happens. -/
def RawGet (d : DownloadOutcome) (copyOk : Bool) : Bool × Bool × Bool :=
  match d with
  | .failure => (false, false, true)
  | .notFound => (false, false, false)
  | .ok n =>
    if n = 0 then (false, false, false)
    else if copyOk then (true, true, false)
    else (true, false, true)

/-- Header and metadata fields produced by a successful DecryptFile header
parse: header version, header length, wrapped key, metadata length and the
metadata record (name, content type, size are irrelevant here and elided). -/
structure ParseRec where
  headerVersion : Nat
  headerLength : Int
  wrappedKey : List Nat
  metadataLength : Int
deriving DecidableEq

/-- Result of the Get and GetWithRange paths: the emitted event trace, the
found flag, whether a tag was returned, and whether an error was
returned. -/
structure GetResult where
  events : List FsEvent
  found : Bool
  tagPresent : Bool
  errored : Bool
deriving DecidableEq

/-- AzureStorage.Get: download the whole blob; an existing blob with zero
content length yields found=false with no error before decryption; on a
successful decrypt the metadata callback runs and the parsed header and
metadata are added to the cache. -/
def Get (d : DownloadOutcome) (parse : Option ParseRec) (name : String) : GetResult :=
  match d with
  | .failure => ⟨[], false, false, true⟩
  | .notFound => ⟨[], false, false, false⟩
  | .ok n =>
    if n = 0 then ⟨[], false, false, false⟩
    else
      match parse with
      | none => ⟨[], true, false, true⟩
      | some _ => ⟨[.metadataCallback, .cacheAdd name], true, true, false⟩

/-- One metadata cache record as returned by cache.Get: the zero record
models a miss.  The miss test used by GetWithRange is
headerVersion = 0, or headerLength below 1, or an absent wrapped key. -/
structure CacheRec where
  headerVersion : Nat
  headerLength : Int
  wrappedKey : List Nat
  metadataLength : Int
deriving DecidableEq

/-- The tail of AzureStorage.GetWithRange after the header fields are known
(from the cache or from the initial fetch): invoke the metadata callback,
download the actual byte range, and on non-empty content run
DecryptPackages.  The range offsets and package numbers are computed by the
external RequestRange helper and passed in as parameters. -/
def getWithRangeTail (hv : Nat) (wk : List Nat) (rngStart rngLength : Int)
    (startPackage skip : Nat) (d₂ : DownloadOutcome) (decryptOk : Bool)
    (evs : List FsEvent) : GetResult :=
  let evs₂ := evs ++ [.metadataCallback, .download rngStart rngLength]
  match d₂ with
  | .failure => ⟨evs₂, false, false, true⟩
  | .notFound => ⟨evs₂, false, false, false⟩
  | .ok n =>
    if n = 0 then ⟨evs₂, false, false, false⟩
    else if decryptOk then
      ⟨evs₂ ++ [.decryptPackages hv wk startPackage skip], true, true, false⟩
    else ⟨evs₂ ++ [.decryptPackages hv wk startPackage skip], true, false, true⟩

/-- AzureStorage.GetWithRange: on a cache miss, download the blob from
offset 0 for 64*1024 + 32 + 256 bytes, parse the header and metadata (the
metadata callback cancels the inner fetch), add them to the cache, then
proceed; on a cache hit proceed directly with the cached fields. -/
def GetWithRange (rec : CacheRec) (d₁ : DownloadOutcome) (parse : Option ParseRec)
    (name : String) (rngStart rngLength : Int) (startPackage skip : Nat)
    (d₂ : DownloadOutcome) (decryptOk : Bool) : GetResult :=
  if rec.headerVersion = 0 ∨ rec.headerLength < 1 ∨ rec.wrappedKey = [] then
    let ev₁ : FsEvent := .download 0 (64 * 1024 + 32 + 256)
    match d₁ with
    | .failure => ⟨[ev₁, .cancelFetch], false, false, true⟩
    | .notFound => ⟨[ev₁, .cancelFetch], false, false, false⟩
    | .ok n =>
      if n = 0 then ⟨[ev₁, .cancelFetch], false, false, false⟩
      else
        match parse with
        | none => ⟨[ev₁, .cancelFetch], false, false, true⟩
        | some p =>
          getWithRangeTail p.headerVersion p.wrappedKey rngStart rngLength
            startPackage skip d₂ decryptOk [ev₁, .cancelFetch, .cacheAdd name]
  else
    getWithRangeTail rec.headerVersion rec.wrappedKey rngStart rngLength
      startPackage skip d₂ decryptOk []

theorem getWithRangeTail_events (hv : Nat) (wk : List Nat) (rngStart rngLength : Int)
    (startPackage skip : Nat) (d₂ : DownloadOutcome) (decryptOk : Bool)
    (evs : List FsEvent) :
    ∃ rest, (getWithRangeTail hv wk rngStart rngLength startPackage skip
        d₂ decryptOk evs).events
      = evs ++ [.metadataCallback, .download rngStart rngLength] ++ rest := by
  cases d₂ with
  | failure => exact ⟨[], by simp [getWithRangeTail]⟩
  | notFound => exact ⟨[], by simp [getWithRangeTail]⟩
  | ok n =>
    by_cases hn : n = 0
    · exact ⟨[], by simp [getWithRangeTail, hn]⟩
    · cases decryptOk with
      | false => exact ⟨[.decryptPackages hv wk startPackage skip],
          by simp [getWithRangeTail, hn]⟩
      | true => exact ⟨[.decryptPackages hv wk startPackage skip],
          by simp [getWithRangeTail, hn]⟩

/-- Claim C8: on a metadata cache miss with a found, non-empty blob and a
successful header parse, GetWithRange first downloads from offset 0 with a
byte count of 64*1024 + 32 + 256 (that is, exactly 64 KiB + 288 bytes),
cancels that fetch after the parse, adds the parsed header and metadata to
the cache, and only then downloads the actual data range. -/
theorem getWithRange_cache_miss_order (rec : CacheRec) (parse : Option ParseRec)
    (name : String) (rngStart rngLength : Int) (startPackage skip : Nat)
    (d₂ : DownloadOutcome) (decryptOk : Bool) (p : ParseRec) (n : Int)
    (hmiss : rec.headerVersion = 0 ∨ rec.headerLength < 1 ∨ rec.wrappedKey = [])
    (hn : n ≠ 0) (hp : parse = some p) :
    (64 * 1024 + 32 + 256 : Int) = 64 * 1024 + 288
    ∧ ∃ rest, (GetWithRange rec (.ok n) parse name rngStart rngLength
        startPackage skip d₂ decryptOk).events
      = [.download 0 (64 * 1024 + 32 + 256), .cancelFetch, .cacheAdd name,
          .metadataCallback, .download rngStart rngLength] ++ rest := by
  refine ⟨by norm_num, ?_⟩
  subst hp
  obtain ⟨rest, hrest⟩ := getWithRangeTail_events p.headerVersion p.wrappedKey
    rngStart rngLength startPackage skip d₂ decryptOk
    [.download 0 (64 * 1024 + 32 + 256), .cancelFetch, .cacheAdd name]
  refine ⟨rest, ?_⟩
  have hred : GetWithRange rec (.ok n) (some p) name rngStart rngLength
      startPackage skip d₂ decryptOk
      = getWithRangeTail p.headerVersion p.wrappedKey rngStart rngLength
          startPackage skip d₂ decryptOk
          [.download 0 (64 * 1024 + 32 + 256), .cancelFetch, .cacheAdd name] := by
    unfold GetWithRange
    rw [if_pos hmiss]
    simp [hn]
  rw [hred]
  exact hrest

/-- Witness for claim C8 at concrete inputs: a cache miss with a found
five-byte blob and a successful parse produces exactly the initial
limited fetch, the cancellation, the cache insertion, the callback, the
range fetch and the ranged decryption, in this order. -/
theorem getWithRange_cache_miss_order_witness :
    (64 * 1024 + 32 + 256 : Int) = 64 * 1024 + 288
    ∧ (GetWithRange ⟨0, 0, [], 0⟩ (.ok 5) (some ⟨2, 10, [1], 20⟩) "obj1" 100 200 1 0
        (.ok 200) true).events
      = [.download 0 (64 * 1024 + 32 + 256), .cancelFetch, .cacheAdd "obj1",
          .metadataCallback, .download 100 200, .decryptPackages 2 [1] 1 0] :=
  ⟨(getWithRange_cache_miss_order ⟨0, 0, [], 0⟩ (some ⟨2, 10, [1], 20⟩) "obj1" 100 200 1 0
      (.ok 200) true ⟨2, 10, [1], 20⟩ 5 (by decide) (by decide) rfl).1,
    by decide⟩

/-- Claim C10: a blob that exists but has zero content length makes RawGet,
Get and GetWithRange all return found=false with a nil error, exactly like
an absent blob. -/
theorem emptyBlob_reads_not_found (copyOk : Bool) (parse : Option ParseRec)
    (name : String) (rec : CacheRec) (rngStart rngLength : Int)
    (startPackage skip : Nat) (d₂ : DownloadOutcome) (decryptOk : Bool)
    (hmiss : rec.headerVersion = 0 ∨ rec.headerLength < 1 ∨ rec.wrappedKey = []) :
    RawGet (.ok 0) copyOk = (false, false, false)
    ∧ (Get (.ok 0) parse name).found = false
    ∧ (Get (.ok 0) parse name).errored = false
    ∧ (GetWithRange rec (.ok 0) parse name rngStart rngLength
        startPackage skip d₂ decryptOk).found = false
    ∧ (GetWithRange rec (.ok 0) parse name rngStart rngLength
        startPackage skip d₂ decryptOk).errored = false := by
  have hg : GetWithRange rec (.ok 0) parse name rngStart rngLength
      startPackage skip d₂ decryptOk
      = ⟨[.download 0 (64 * 1024 + 32 + 256), .cancelFetch], false, false, false⟩ := by
    unfold GetWithRange
    rw [if_pos hmiss]
    rfl
  refine ⟨rfl, rfl, rfl, ?_, ?_⟩ <;> rw [hg]

/-- Witness for claim C10 at concrete inputs. -/
theorem emptyBlob_reads_not_found_witness :
    RawGet (.ok 0) true = (false, false, false)
    ∧ (GetWithRange ⟨0, 0, [], 0⟩ (.ok 0) none "obj2" 0 0 1 0 (.ok 0) true).found
      = false :=
  ⟨(emptyBlob_reads_not_found true none "obj2" ⟨0, 0, [], 0⟩ 0 0 1 0 (.ok 0) true
      (by decide)).1,
    (emptyBlob_reads_not_found true none "obj2" ⟨0, 0, [], 0⟩ 0 0 1 0 (.ok 0) true
      (by decide)).2.2.2.1⟩

end Prvt
